import Mathlib

/-!
Verification of the backlog-generation core of `agile-planner-mcp`
(file `src/unnamed/part_000` of the repository).

The development shallowly embeds:

* the JSON value model (`Json`) standing for parsed JavaScript objects;
* the validation schema produced by `createBacklogSchema`, embedded as the
  executable acceptance checkers `checkEpic`, `checkStory`, `checkIteration`
  and `checkBacklog` (Ajv semantics: `type`, `required`, `properties`,
  `minItems`/`maxItems`, `items`, `enum`, `pattern`; no
  `additionalProperties` keyword occurs in the schema, so unknown members
  are unconstrained).  The single `$ref: "#/properties/mvp/items"` of the
  source resolves to the story item schema, so both `mvp` and
  `iterations[].stories` elements are checked by `checkStory`;
* `validateBacklog`, with Ajv's compiled validator modelled as an oracle
  `Json → List AjvError` returning the (possibly empty) error list;
* the completion adapter `callApiForBacklog`, with the provider response and
  `JSON.parse` modelled as oracles, and its three observable outcomes
  (`ApiOutcome`);
* the generation-validation loop `attemptBacklogGeneration`
  (fuel recursion `attemptLoopAux` over `maxTries = 3`), instrumented with
  the list of message sequences handed to the adapter at each invocation;
* `processBacklogParams`, `determineModel`, `createApiMessages` and the
  envelope boundary `generateBacklog` (`generateBacklogRun` additionally
  exposes the adapter-invocation trace; exceptions are the `raised`
  outcome, resolved promises are plain function results).
-/

/-- JSON values, standing for the JavaScript values the generator
manipulates.  Objects are association lists; JavaScript property access
is first-match lookup (`jLookup`). -/
inductive Json where
  | jnull : Json
  | jbool (b : Bool) : Json
  | jnum (n : Int) : Json
  | jstr (s : String) : Json
  | jarr (elems : List Json) : Json
  | jobj (fields : List (String × Json)) : Json

/-- Property lookup on a JSON object field list (first match wins). -/
def jLookup (fields : List (String × Json)) (k : String) : Option Json :=
  (fields.find? (fun p => p.1 == k)).map (fun p => p.2)

/-- Ajv `properties` semantics: a property subschema constrains the member
only when it is present. -/
def propOk (fields : List (String × Json)) (k : String) (check : Json → Bool) : Bool :=
  match jLookup fields k with
  | some v => check v
  | none => true

/-- Ajv `type: "string"`. -/
def isString : Json → Bool
  | .jstr _ => true
  | _ => false

/-- The story `id` pattern of the schema, a JavaScript regular expression
anchored at both ends: exactly the two characters `US` followed by exactly
three ASCII digits.  Written over the character list so that it evaluates
by kernel reduction. -/
def usIdPattern (s : String) : Bool :=
  match s.data with
  | 'U' :: 'S' :: ds => ds.length == 3 && ds.all Char.isDigit
  | _ => false

/-- The `epic` subschema of `createBacklogSchema`: an object with required
string members `title` and `description`. -/
def checkEpic : Json → Bool
  | .jobj fs =>
      (jLookup fs "title").isSome && (jLookup fs "description").isSome &&
      propOk fs "title" isString && propOk fs "description" isString
  | _ => false

/-- An array of strings with at least `n` elements (the
`acceptance_criteria` and `tasks` subschemas use `n = 2`). -/
def stringArrayMin (n : Nat) : Json → Bool
  | .jarr xs => n ≤ xs.length && xs.all isString
  | _ => false

/-- The `mvp` item subschema of `createBacklogSchema` (also the resolution
of the `$ref: "#/properties/mvp/items"` used for `iterations[].stories`
items): a user story object. -/
def checkStory : Json → Bool
  | .jobj fs =>
      (jLookup fs "id").isSome && (jLookup fs "title").isSome &&
      (jLookup fs "description").isSome && (jLookup fs "acceptance_criteria").isSome &&
      (jLookup fs "tasks").isSome && (jLookup fs "priority").isSome &&
      propOk fs "id" (fun v => match v with
        | .jstr s => usIdPattern s
        | _ => false) &&
      propOk fs "title" isString &&
      propOk fs "description" isString &&
      propOk fs "acceptance_criteria" (stringArrayMin 2) &&
      propOk fs "tasks" (stringArrayMin 2) &&
      propOk fs "priority" (fun v => match v with
        | .jstr s => s == "HIGH" || s == "MEDIUM" || s == "LOW"
        | _ => false)
  | _ => false

/-- The `iterations` item subschema: an object with required members
`name`, `goal` and `stories` (a non-empty array of story items, checked by
the shared story schema). -/
def checkIteration : Json → Bool
  | .jobj fs =>
      (jLookup fs "name").isSome && (jLookup fs "goal").isSome &&
      (jLookup fs "stories").isSome &&
      propOk fs "name" isString && propOk fs "goal" isString &&
      propOk fs "stories" (fun v => match v with
        | .jarr xs => 1 ≤ xs.length && xs.all checkStory
        | _ => false)
  | _ => false

/-- The root schema of `createBacklogSchema`: an object with required
members `epic`, `mvp` (3 to 5 stories) and `iterations` (2 to 3
iterations). -/
def checkBacklog : Json → Bool
  | .jobj fs =>
      (jLookup fs "epic").isSome && (jLookup fs "mvp").isSome &&
      (jLookup fs "iterations").isSome &&
      propOk fs "epic" checkEpic &&
      propOk fs "mvp" (fun v => match v with
        | .jarr xs => 3 ≤ xs.length && xs.length ≤ 5 && xs.all checkStory
        | _ => false) &&
      propOk fs "iterations" (fun v => match v with
        | .jarr xs => 2 ≤ xs.length && xs.length ≤ 3 && xs.all checkIteration
        | _ => false)
  | _ => false

/-- The `function_call` payload of a completion choice
(`{ name, arguments }`, `arguments` being the raw JSON text). -/
structure FunctionCall where
  name : String
  arguments : String
deriving DecidableEq, Repr

/-- A chat turn: `role`, optional `content`, optional `function_call`
(the assistant echo turn has `content: null` and a `function_call`). -/
structure Message where
  role : String
  content : Option String
  function_call : Option FunctionCall
deriving DecidableEq, Repr

/-- An Ajv validation error object, as read by `validateBacklog`
(`instancePath` and `message` members). -/
structure AjvError where
  instancePath : String
  message : String
deriving DecidableEq, Repr

/-- The value held in `lastValidationErrors`: either the singleton
`[{ message: apiResult.error }]` fabricated for an adapter-level failure,
or the Ajv error list of a schema failure.  `firstMessage` reads
`lastValidationErrors?.[0]?.message`. -/
inductive LastErr where
  | apiErr (message : String)
  | schemaErrs (errors : List AjvError)
deriving DecidableEq, Repr

/-- `lastValidationErrors?.[0]?.message`. -/
def LastErr.firstMessage : LastErr → Option String
  | .apiErr m => some m
  | .schemaErrs es => es.head?.map (fun e => e.message)

/-- Result record of `validateBacklog` (`{valid, errors, errorMsg}`; the
valid case of the source carries no `errors`/`errorMsg` members, modelled
by the never-read defaults `[]` and `""`). -/
structure ValidationResult where
  valid : Bool
  errors : List AjvError
  errorMsg : String

/-- The violation-message concatenation of `validateBacklog`:
`<instancePath> <message>` per error, joined by `; `. -/
def fmtErrors (errs : List AjvError) : String :=
  String.intercalate "; " (errs.map (fun e => e.instancePath ++ " " ++ e.message))

/-- `validateBacklog(backlog, validator)` of the source.  The compiled Ajv
validator is modelled as an oracle returning the error list (empty exactly
when the validator returns `true`). -/
def validateBacklog (backlog : Json) (validator : Json → List AjvError) : ValidationResult :=
  let errs := validator backlog
  if errs.isEmpty then
    { valid := true, errors := [], errorMsg := "" }
  else
    { valid := false, errors := errs, errorMsg := fmtErrors errs }

/-- The three outcomes of one `callApiForBacklog` invocation as observed by
the loop: a propagated exception (`throws`), a `{valid:false, error}`
return, or a `{valid:true, data, functionCall}` return. -/
inductive ApiOutcome where
  | throws (msg : String)
  | invalid (error : String)
  | valid (data : Json) (functionCall : FunctionCall)

/-- A completion choice: only its `message.function_call` member is read. -/
structure Choice where
  function_call : Option FunctionCall

/-- Behaviour of `client.chat.completions.create`: either it throws, or it
returns a completion with a (possibly empty) choice list. -/
inductive ClientResponse where
  | exn (msg : String)
  | completion (choices : List Choice)

/-- `callApiForBacklog` of the source, with the provider behaviour and
`JSON.parse` passed as oracles.  An empty choice list raises
`Réponse API invalide: aucun choix retourné`, which the surrounding catch
converts to `{valid:false}` (as it does any thrown error carrying exactly
that message); any other exception is rethrown.  A missing function call
or a `JSON.parse` failure also yield `{valid:false}`. -/
def callApiForBacklog (resp : ClientResponse)
    (jsonParse : String → Except String Json) : ApiOutcome :=
  match resp with
  | .exn m =>
      if m == "Réponse API invalide: aucun choix retourné" then .invalid m else .throws m
  | .completion choices =>
      match choices with
      | [] => .invalid "Réponse API invalide: aucun choix retourné"
      | c :: _ =>
          match c.function_call with
          | none => .invalid "Aucun appel de fonction retourné par l\x27API"
          | some fc =>
              match jsonParse fc.arguments with
              | .error pm => .invalid ("Erreur de parsing JSON: " ++ pm)
              | .ok parsed => .valid parsed fc

/-- Loop return record (`{success, result, lastValidationErrors}`; the
failure return of the source carries no `result` member). -/
structure LoopResult where
  success : Bool
  result : Option Json
  lastValidationErrors : Option LastErr

/-- How a loop execution ends: a returned record, or an exception
propagating out of `attemptBacklogGeneration`. -/
inductive LoopOutcome where
  | done (r : LoopResult)
  | raised (msg : String)

/-- A loop execution together with its instrumentation: `calls` lists, in
order, the message sequence handed to the adapter at each invocation. -/
structure LoopRun where
  outcome : LoopOutcome
  calls : List (List Message)

/-- The assistant turn echoing the raw function call, appended after a
schema failure. -/
def assistantEcho (fc : FunctionCall) : Message :=
  { role := "assistant", content := none, function_call := some fc }

/-- The corrective system turn appended after a schema failure. -/
def correctiveTurn (errorMsg : String) : Message :=
  { role := "system",
    content := some ("La réponse JSON n\x27est pas valide : " ++ errorMsg ++
      ". Merci de ne renvoyer que le JSON conforme via deliver_backlog."),
    function_call := none }

/-- `maxTries` of `attemptBacklogGeneration`. -/
def maxTries : Nat := 3

/-- The body of the `for (let attempt = 1; attempt <= maxTries; attempt++)`
loop of `attemptBacklogGeneration`, as fuel recursion on the remaining
attempts.  The adapter is an oracle over the attempt number and the
current message sequence (standing for `callApiForBacklog(client, model,
messages, backlogSchema)` under network nondeterminism). -/
def attemptLoopAux (api : Nat → List Message → ApiOutcome)
    (validator : Json → List AjvError) :
    Nat → Nat → List Message → Option LastErr → LoopRun
  | 0, _attempt, _msgs, lastErrs =>
      { outcome := .done { success := false, result := none,
                           lastValidationErrors := lastErrs },
        calls := [] }
  | rem + 1, attempt, msgs, _lastErrs =>
      match api attempt msgs with
      | .throws m => { outcome := .raised m, calls := [msgs] }
      | .invalid err =>
          let r := attemptLoopAux api validator rem (attempt + 1) msgs
            (some (.apiErr err))
          { outcome := r.outcome, calls := msgs :: r.calls }
      | .valid data fc =>
          let vr := validateBacklog data validator
          if vr.valid then
            { outcome := .done { success := true, result := some data,
                                 lastValidationErrors := none },
              calls := [msgs] }
          else
            let newMsgs := msgs ++ [assistantEcho fc, correctiveTurn vr.errorMsg]
            let r := attemptLoopAux api validator rem (attempt + 1) newMsgs
              (some (.schemaErrs vr.errors))
            { outcome := r.outcome, calls := msgs :: r.calls }

/-- `attemptBacklogGeneration` of the source: run the loop from attempt 1
with `maxTries` attempts and no recorded failure. -/
def attemptBacklogGeneration (api : Nat → List Message → ApiOutcome)
    (validator : Json → List AjvError) (messages : List Message) : LoopRun :=
  attemptLoopAux api validator maxTries 1 messages none

/-- The API client object; only its `baseURL` member is read
(`undefined` for the plain OpenAI constructor). -/
structure Client where
  baseURL : Option String
deriving DecidableEq, Repr

/-- The `projectDescription` argument: a string in the current calling
convention, or (legacy) the client object passed in the description slot. -/
inductive DescArg where
  | strDesc (s : String)
  | objDesc (c : Client)

/-- The `error` member of the failure envelope (`{ message }`). -/
structure ErrorObj where
  message : String
deriving DecidableEq, Repr

/-- Result of `processBacklogParams`: `{valid:false, error}` or
`{valid:true, project, client}`. -/
inductive ParamsResult where
  | invalid (error : ErrorObj)
  | ok (project : String) (client : Client)

/-- `processBacklogParams` of the source: legacy swap when the description
slot holds an object and no client was passed (JavaScript string
interpolation of an object yields `[object Object]` otherwise), then the
client-presence check producing `Client API non défini`, else the project
string `` `${projectName}: ${projectDescription}` ``. -/
def processBacklogParams (projectName : String) (projectDescription : DescArg)
    (client : Option Client) : ParamsResult :=
  let args : String × Option Client :=
    match projectDescription, client with
    | .objDesc c, none => ("", some c)
    | .objDesc _, some c => ("[object Object]", some c)
    | .strDesc s, c => (s, c)
  match args.2 with
  | none => .invalid { message := "Client API non défini" }
  | some c => .ok (projectName ++ ": " ++ args.1) c

/-- JavaScript `String.prototype.includes`: `sub` occurs contiguously in
`s`.  Written over the character lists so that it evaluates by kernel
reduction. -/
def strIncludes (s sub : String) : Bool :=
  (List.range (s.data.length + 1)).any (fun i => sub.data.isPrefixOf (s.data.drop i))

/-- `determineModel` of the source: the flagship model when `baseURL` is
undefined or contains `openai.com`, else the GROQ large model. -/
def determineModel (client : Client) : String :=
  match client.baseURL with
  | none => "gpt-4.1"
  | some u => if strIncludes u "openai.com" then "gpt-4.1" else "llama3-70b-8192"

/-- `createApiMessages` of the source: the fixed three-turn prompt. -/
def createApiMessages (project : String) : List Message :=
  [ { role := "system",
      content := some ("You are an expert agile product owner. Generate a detailed agile backlog as a valid JSON object strictly following the given JSON schema and structure. Include all required fields and respect all constraints."),
      function_call := none },
    { role := "user",
      content := some ("Project description: " ++ project),
      function_call := none },
    { role := "system",
      content := some ("Le backlog doit comporter :\n- Un objet \x27epic\x27 (titre, description)\n- Un tableau \x27mvp\x27 (3 à 5 user stories complètes avec id, title, description, acceptance_criteria, tasks, priority)\n- Un tableau \x27iterations\x27 (2 à 3 itérations, chaque itération a un nom, un goal, et des stories conformes au schéma user story).\nRespecte strictement ce format. N\x27invente pas de champs en plus.\nProduce a valid JSON that I can use directly."),
      function_call := none } ]

/-- The Result Envelope `{ success, result, error }`. -/
structure Envelope where
  success : Bool
  result : Option Json
  error : Option ErrorObj

/-- JavaScript `a || b` on a string `a` (the empty string is falsy). -/
def jsOr (s d : String) : String :=
  if s == "" then d else s

/-- JavaScript `a?.x || b` when `a?.x` may be absent. -/
def jsOrOpt (s : Option String) (d : String) : String :=
  match s with
  | some v => jsOr v d
  | none => d

/-- `generateBacklog` of the source, additionally exposing the
adapter-invocation trace of the loop (empty when the parameter check fails
before any attempt).  Promise resolution is a plain function result; the
`catch` branches of the source are the `raised` loop outcome, converted
into `{success:false, error:{message}}` with the fallback text of the
source when the exception message is empty. -/
def generateBacklogRun (projectName : String) (projectDescription : DescArg)
    (client : Option Client) (api : Nat → List Message → ApiOutcome)
    (validator : Json → List AjvError) : Envelope × List (List Message) :=
  match processBacklogParams projectName projectDescription client with
  | .invalid e =>
      ({ success := false, result := none, error := some { message := e.message } }, [])
  | .ok project cl =>
      let messages := createApiMessages project
      let _model := determineModel cl
      let run := attemptBacklogGeneration api validator messages
      match run.outcome with
      | .raised m =>
          ({ success := false, result := none,
             error := some { message := (jsOr m
               "Une erreur est survenue lors de la génération du backlog") } },
           run.calls)
      | .done r =>
          if r.success then
            ({ success := true, result := r.result, error := none }, run.calls)
          else
            ({ success := false, result := none,
               error := some { message := (jsOrOpt
                 (r.lastValidationErrors.bind LastErr.firstMessage)
                 "Validation du backlog échouée") } },
             run.calls)

/-- The envelope returned by `generateBacklog`. -/
def generateBacklog (projectName : String) (projectDescription : DescArg)
    (client : Option Client) (api : Nat → List Message → ApiOutcome)
    (validator : Json → List AjvError) : Envelope :=
  (generateBacklogRun projectName projectDescription client api validator).1

/-! Concrete sample data used by witnesses and counterexamples. -/

/-- A schema-conformant user story with the given id and title. -/
def mkStory (id title : String) : Json :=
  .jobj [("id", .jstr id), ("title", .jstr title),
         ("description", .jstr "desc"),
         ("acceptance_criteria", .jarr [.jstr "crit one", .jstr "crit two"]),
         ("tasks", .jarr [.jstr "task one", .jstr "task two"]),
         ("priority", .jstr "HIGH")]

/-- A schema-conformant epic object. -/
def sampleEpic : Json :=
  .jobj [("title", .jstr "Epic title"), ("description", .jstr "Epic description")]

/-- A schema-conformant iteration with the given name and stories. -/
def mkIteration (n : String) (stories : List Json) : Json :=
  .jobj [("name", .jstr n), ("goal", .jstr "goal"), ("stories", .jarr stories)]

/-- A 3-story MVP. -/
def sampleMvp : List Json :=
  [mkStory "US001" "first", mkStory "US002" "second", mkStory "US003" "third"]

/-- Two schema-conformant iterations. -/
def sampleIterations : List Json :=
  [mkIteration "iteration one" [mkStory "US004" "fourth"],
   mkIteration "iteration two" [mkStory "US005" "fifth"]]

/-- The members of a fully schema-conformant backlog in the current
(`epic`) shape. -/
def sampleBacklogFields : List (String × Json) :=
  [("epic", sampleEpic), ("mvp", .jarr sampleMvp),
   ("iterations", .jarr sampleIterations)]

/-- A fully schema-conformant backlog in the current (`epic`) shape. -/
def sampleBacklog : Json := .jobj sampleBacklogFields

/-- The same backlog content carrying its epic as a one-element `epics`
sequence (the legacy shape handled by the markdown generator) instead of
an `epic` object. -/
def epicsShapeBacklog : Json :=
  .jobj [("epics", .jarr [sampleEpic]), ("mvp", .jarr sampleMvp),
         ("iterations", .jarr sampleIterations)]


/-! Helper lemmas. -/

/-- The `valid` flag of `validateBacklog` is emptiness of the validator's
error list. -/
theorem validateBacklog_valid (d : Json) (v : Json → List AjvError) :
    (validateBacklog d v).valid = (v d).isEmpty := by
  unfold validateBacklog
  by_cases h : (v d).isEmpty <;> simp [h]

/-- On an invalid backlog, `validateBacklog` passes the validator's error
list through. -/
theorem validateBacklog_errors (d : Json) (v : Json → List AjvError)
    (h : (v d).isEmpty = false) : (validateBacklog d v).errors = v d := by
  unfold validateBacklog
  simp [h]

/-- On an invalid backlog, `errorMsg` is the formatted concatenation of
the validator's errors. -/
theorem validateBacklog_errorMsg (d : Json) (v : Json → List AjvError)
    (h : (v d).isEmpty = false) :
    (validateBacklog d v).errorMsg = fmtErrors (v d) := by
  unfold validateBacklog
  simp [h]

/-- The loop makes at most as many adapter calls as it has fuel. -/
theorem attemptLoopAux_calls_length (api : Nat → List Message → ApiOutcome)
    (v : Json → List AjvError) :
    ∀ (rem att : Nat) (msgs : List Message) (le : Option LastErr),
      (attemptLoopAux api v rem att msgs le).calls.length ≤ rem := by
  intro rem
  induction rem with
  | zero => intro att msgs le; simp [attemptLoopAux]
  | succ r ih =>
      intro att msgs le
      simp only [attemptLoopAux]
      cases hapi : api att msgs with
      | throws m => simp
      | invalid err =>
          simpa using Nat.succ_le_succ (ih (att + 1) msgs (some (.apiErr err)))
      | valid data fc =>
          by_cases hv : (validateBacklog data v).valid
          · simp [hv]
          · simp only [hv, if_false, Bool.false_eq_true]
            simpa using Nat.succ_le_succ (ih (att + 1) _ (some (.schemaErrs (validateBacklog data v).errors)))

/-- With fuel remaining, the first adapter call of the loop receives the
current message sequence. -/
theorem attemptLoopAux_calls_head (api : Nat → List Message → ApiOutcome)
    (v : Json → List AjvError) (rem att : Nat) (msgs : List Message)
    (le : Option LastErr) (h : 0 < rem) :
    (attemptLoopAux api v rem att msgs le).calls[0]? = some msgs := by
  cases rem with
  | zero => omega
  | succ r =>
      simp only [attemptLoopAux]
      cases hapi : api att msgs with
      | throws m => simp
      | invalid err => simp
      | valid data fc =>
          by_cases hv : (validateBacklog data v).valid
          · simp [hv]
          · simp [hv]

/-- A validly-parsed, schema-valid adapter result stops the loop at once:
the run returns success with that data and makes no further adapter call,
whatever fuel remains. -/
theorem attemptLoopAux_success_stop (api : Nat → List Message → ApiOutcome)
    (v : Json → List AjvError) (rem att : Nat) (msgs : List Message)
    (le : Option LastErr) (data : Json) (fc : FunctionCall)
    (hapi : api att msgs = .valid data fc) (hv : v data = []) :
    attemptLoopAux api v (rem + 1) att msgs le =
      { outcome := .done { success := true, result := some data,
                           lastValidationErrors := none },
        calls := [msgs] } := by
  have hvalid : (validateBacklog data v).valid = true := by
    rw [validateBacklog_valid, hv]; rfl
  simp only [attemptLoopAux, hapi, hvalid, if_true]

/-- An adapter-propagated exception aborts the loop with that exception. -/
theorem attemptLoopAux_throws (api : Nat → List Message → ApiOutcome)
    (v : Json → List AjvError) (rem att : Nat) (msgs : List Message)
    (le : Option LastErr) (m : String)
    (hapi : api att msgs = .throws m) :
    (attemptLoopAux api v (rem + 1) att msgs le).outcome = .raised m := by
  simp only [attemptLoopAux, hapi]

/-- An adapter outcome that fails the attempt: either a `{valid:false}`
return, or a parsed result the validator rejects (a propagated exception
is not a failed attempt — it aborts the loop). -/
def AttemptFails (v : Json → List AjvError) : ApiOutcome → Prop
  | .throws _ => False
  | .invalid _ => True
  | .valid d _ => v d ≠ []

/-- The `lastValidationErrors` value the loop records for a failing
adapter outcome. -/
def failureOf (v : Json → List AjvError) : ApiOutcome → Option LastErr
  | .throws _ => none
  | .invalid e => some (.apiErr e)
  | .valid d _ => some (.schemaErrs (v d))

/-- One-step unfolding of the loop body on an `invalid` adapter return:
the next attempt runs on the unchanged message sequence with the adapter
error recorded. -/
theorem attemptLoopAux_invalid_step (api : Nat → List Message → ApiOutcome)
    (v : Json → List AjvError) (rem att : Nat) (msgs : List Message)
    (le : Option LastErr) (err : String)
    (hapi : api att msgs = .invalid err) :
    attemptLoopAux api v (rem + 1) att msgs le =
      { outcome := (attemptLoopAux api v rem (att + 1) msgs
          (some (.apiErr err))).outcome,
        calls := msgs :: (attemptLoopAux api v rem (att + 1) msgs
          (some (.apiErr err))).calls } := by
  rw [attemptLoopAux, hapi]

/-- One-step unfolding of the loop body on a parsed-but-schema-invalid
adapter return: the next attempt runs on the message sequence extended
with the assistant echo and the corrective system turn, with the schema
violations recorded. -/
theorem attemptLoopAux_schemafail_step (api : Nat → List Message → ApiOutcome)
    (v : Json → List AjvError) (rem att : Nat) (msgs : List Message)
    (le : Option LastErr) (data : Json) (fc : FunctionCall)
    (hapi : api att msgs = .valid data fc)
    (hv : (validateBacklog data v).valid = false) :
    attemptLoopAux api v (rem + 1) att msgs le =
      { outcome := (attemptLoopAux api v rem (att + 1)
          (msgs ++ [assistantEcho fc, correctiveTurn (validateBacklog data v).errorMsg])
          (some (.schemaErrs (validateBacklog data v).errors))).outcome,
        calls := msgs :: (attemptLoopAux api v rem (att + 1)
          (msgs ++ [assistantEcho fc, correctiveTurn (validateBacklog data v).errorMsg])
          (some (.schemaErrs (validateBacklog data v).errors))).calls } := by
  rw [attemptLoopAux, hapi]
  simp only [hv, Bool.false_eq_true, if_false]

/-- When every attempt fails, the loop burns all its fuel: it makes one
adapter call per unit of fuel and returns failure carrying the failure
recorded on the final attempt. -/
theorem attemptLoopAux_all_fail (api : Nat → List Message → ApiOutcome)
    (v : Json → List AjvError)
    (hfail : ∀ a m, AttemptFails v (api a m)) :
    ∀ (r att : Nat) (msgs : List Message) (le : Option LastErr),
      ∃ last : List Message,
        (attemptLoopAux api v (r + 1) att msgs le).outcome =
          .done { success := false, result := none,
                  lastValidationErrors := failureOf v (api (att + r) last) } ∧
        (attemptLoopAux api v (r + 1) att msgs le).calls.length = r + 1 ∧
        (attemptLoopAux api v (r + 1) att msgs le).calls[r]? = some last := by
  intro r
  induction r with
  | zero =>
      intro att msgs le
      refine ⟨msgs, ?_⟩
      have h := hfail att msgs
      cases hapi : api att msgs with
      | throws m => rw [hapi] at h; exact absurd h (by simp [AttemptFails])
      | invalid err =>
          rw [attemptLoopAux_invalid_step api v 0 att msgs le err hapi]
          simp [attemptLoopAux, hapi, failureOf]
      | valid data fc =>
          rw [hapi] at h
          have hne : v data ≠ [] := h
          have hvalid : (validateBacklog data v).valid = false := by
            rw [validateBacklog_valid]; simpa using hne
          have herrs : (validateBacklog data v).errors = v data :=
            validateBacklog_errors data v (by simpa using hne)
          rw [attemptLoopAux_schemafail_step api v 0 att msgs le data fc hapi hvalid]
          simp [attemptLoopAux, hapi, failureOf, herrs]
  | succ n ih =>
      intro att msgs le
      have h := hfail att msgs
      have harith : att + 1 + n = att + (n + 1) := by omega
      cases hapi : api att msgs with
      | throws m => rw [hapi] at h; exact absurd h (by simp [AttemptFails])
      | invalid err =>
          obtain ⟨last, h1, h2, h3⟩ := ih (att + 1) msgs (some (.apiErr err))
          rw [harith] at h1
          refine ⟨last, ?_, ?_, ?_⟩ <;>
            rw [attemptLoopAux_invalid_step api v (n + 1) att msgs le err hapi]
          · exact h1
          · simpa using h2
          · simpa using h3
      | valid data fc =>
          rw [hapi] at h
          have hne : v data ≠ [] := h
          have hvalid : (validateBacklog data v).valid = false := by
            rw [validateBacklog_valid]; simpa using hne
          obtain ⟨last, h1, h2, h3⟩ := ih (att + 1)
            (msgs ++ [assistantEcho fc, correctiveTurn (validateBacklog data v).errorMsg])
            (some (.schemaErrs (validateBacklog data v).errors))
          rw [harith] at h1
          refine ⟨last, ?_, ?_, ?_⟩ <;>
            rw [attemptLoopAux_schemafail_step api v (n + 1) att msgs le data fc hapi hvalid]
          · exact h1
          · simpa using h2
          · simpa using h3

/-- Trace adjacency after a schema failure: if the attempt that received
message sequence `mk` (trace index `k`, attempt number `att + k`) returns
parsed data the validator rejects, and attempts remain, then the next
adapter call receives exactly `mk` extended with the assistant echo of the
raw function call and the corrective system turn built from the
concatenated violations. -/
theorem attemptLoopAux_calls_succ_schema (api : Nat → List Message → ApiOutcome)
    (v : Json → List AjvError) :
    ∀ (rem att : Nat) (msgs : List Message) (le : Option LastErr)
      (k : Nat) (mk : List Message) (data : Json) (fc : FunctionCall),
      (attemptLoopAux api v rem att msgs le).calls[k]? = some mk →
      api (att + k) mk = .valid data fc →
      (v data).isEmpty = false →
      k + 1 < rem →
      (attemptLoopAux api v rem att msgs le).calls[k + 1]? =
        some (mk ++ [assistantEcho fc, correctiveTurn (fmtErrors (v data))]) := by
  intro rem
  induction rem with
  | zero =>
      intro att msgs le k mk data fc hk
      simp [attemptLoopAux] at hk
  | succ r ih =>
      intro att msgs le k mk data fc hk hcall hinv hlt
      cases hapi : api att msgs with
      | throws m =>
          rw [attemptLoopAux, hapi] at hk
          cases k with
          | zero =>
              simp only [List.getElem?_cons_zero, Option.some.injEq] at hk
              subst hk
              rw [Nat.add_zero] at hcall
              rw [hapi] at hcall
              exact absurd hcall (by simp)
          | succ j => simp at hk
      | invalid err =>
          rw [attemptLoopAux_invalid_step api v r att msgs le err hapi] at hk ⊢
          cases k with
          | zero =>
              simp only [List.getElem?_cons_zero, Option.some.injEq] at hk
              subst hk
              rw [Nat.add_zero, hapi] at hcall
              exact absurd hcall (by simp)
          | succ j =>
              simp only [List.getElem?_cons_succ] at hk ⊢
              have harith : att + (j + 1) = (att + 1) + j := by omega
              rw [harith] at hcall
              exact ih (att + 1) msgs (some (.apiErr err)) j mk data fc hk hcall hinv
                (by omega)
      | valid data' fc' =>
          by_cases hvd : (validateBacklog data' v).valid
          · rw [attemptLoopAux, hapi] at hk
            simp only [hvd, if_true] at hk
            cases k with
            | zero =>
                simp only [List.getElem?_cons_zero, Option.some.injEq] at hk
                subst hk
                rw [Nat.add_zero, hapi] at hcall
                obtain ⟨hd, _⟩ := ApiOutcome.valid.inj hcall
                rw [validateBacklog_valid] at hvd
                rw [hd] at hvd
                rw [hvd] at hinv
                exact absurd hinv (by simp)
            | succ j => simp at hk
          · have hvfalse : (validateBacklog data' v).valid = false := by
              simpa using hvd
            rw [attemptLoopAux_schemafail_step api v r att msgs le data' fc' hapi hvfalse]
              at hk ⊢
            cases k with
            | zero =>
                simp only [List.getElem?_cons_zero, Option.some.injEq] at hk
                subst hk
                rw [Nat.add_zero, hapi] at hcall
                obtain ⟨hd, hf⟩ := ApiOutcome.valid.inj hcall
                have hinv' : (v data').isEmpty = false := by rw [hd]; exact hinv
                simp only [List.getElem?_cons_succ]
                have hr : 0 < r := by omega
                rw [attemptLoopAux_calls_head api v r (att + 1) _ _ hr]
                rw [validateBacklog_errorMsg data' v hinv', hd, hf]
            | succ j =>
                simp only [List.getElem?_cons_succ] at hk ⊢
                have harith : att + (j + 1) = (att + 1) + j := by omega
                rw [harith] at hcall
                exact ih (att + 1) _ _ j mk data fc hk hcall hinv (by omega)

/-- Trace adjacency after an adapter-level failure: if the attempt that
received message sequence `mk` (trace index `k`, attempt number `att + k`)
gets a `{valid:false}` adapter return and attempts remain, the next
adapter call receives exactly the same message sequence `mk`. -/
theorem attemptLoopAux_calls_succ_apifail (api : Nat → List Message → ApiOutcome)
    (v : Json → List AjvError) :
    ∀ (rem att : Nat) (msgs : List Message) (le : Option LastErr)
      (k : Nat) (mk : List Message) (err : String),
      (attemptLoopAux api v rem att msgs le).calls[k]? = some mk →
      api (att + k) mk = .invalid err →
      k + 1 < rem →
      (attemptLoopAux api v rem att msgs le).calls[k + 1]? = some mk := by
  intro rem
  induction rem with
  | zero =>
      intro att msgs le k mk err hk
      simp [attemptLoopAux] at hk
  | succ r ih =>
      intro att msgs le k mk err hk hcall hlt
      cases hapi : api att msgs with
      | throws m =>
          rw [attemptLoopAux, hapi] at hk
          cases k with
          | zero =>
              simp only [List.getElem?_cons_zero, Option.some.injEq] at hk
              subst hk
              rw [Nat.add_zero, hapi] at hcall
              exact absurd hcall (by simp)
          | succ j => simp at hk
      | invalid err' =>
          rw [attemptLoopAux_invalid_step api v r att msgs le err' hapi] at hk ⊢
          cases k with
          | zero =>
              simp only [List.getElem?_cons_zero, Option.some.injEq] at hk
              subst hk
              simp only [List.getElem?_cons_succ]
              exact attemptLoopAux_calls_head api v r (att + 1) msgs _ (by omega)
          | succ j =>
              simp only [List.getElem?_cons_succ] at hk ⊢
              have harith : att + (j + 1) = (att + 1) + j := by omega
              rw [harith] at hcall
              exact ih (att + 1) msgs (some (.apiErr err')) j mk err hk hcall (by omega)
      | valid data' fc' =>
          by_cases hvd : (validateBacklog data' v).valid
          · rw [attemptLoopAux, hapi] at hk
            simp only [hvd, if_true] at hk
            cases k with
            | zero =>
                simp only [List.getElem?_cons_zero, Option.some.injEq] at hk
                subst hk
                rw [Nat.add_zero, hapi] at hcall
                exact absurd hcall (by simp)
            | succ j => simp at hk
          · have hvfalse : (validateBacklog data' v).valid = false := by
              simpa using hvd
            rw [attemptLoopAux_schemafail_step api v r att msgs le data' fc' hapi hvfalse]
              at hk ⊢
            cases k with
            | zero =>
                simp only [List.getElem?_cons_zero, Option.some.injEq] at hk
                subst hk
                rw [Nat.add_zero, hapi] at hcall
                exact absurd hcall (by simp)
            | succ j =>
                simp only [List.getElem?_cons_succ] at hk ⊢
                have harith : att + (j + 1) = (att + 1) + j := by omega
                rw [harith] at hcall
                exact ih (att + 1) _ _ j mk err hk hcall (by omega)

/-- A successful loop return always carries a result value. -/
theorem attemptLoopAux_done_success_result (api : Nat → List Message → ApiOutcome)
    (v : Json → List AjvError) :
    ∀ (rem att : Nat) (msgs : List Message) (le : Option LastErr) (r : LoopResult),
      (attemptLoopAux api v rem att msgs le).outcome = .done r →
      r.success = true → ∃ d, r.result = some d := by
  intro rem
  induction rem with
  | zero =>
      intro att msgs le r hdone hs
      simp only [attemptLoopAux, LoopOutcome.done.injEq] at hdone
      rw [← hdone] at hs
      simp at hs
  | succ n ih =>
      intro att msgs le r hdone hs
      cases hapi : api att msgs with
      | throws m =>
          rw [attemptLoopAux, hapi] at hdone
          simp at hdone
      | invalid err =>
          rw [attemptLoopAux_invalid_step api v n att msgs le err hapi] at hdone
          exact ih (att + 1) msgs (some (.apiErr err)) r hdone hs
      | valid data fc =>
          by_cases hvd : (validateBacklog data v).valid
          · rw [attemptLoopAux, hapi] at hdone
            simp only [hvd, if_true, LoopOutcome.done.injEq] at hdone
            rw [← hdone]
            exact ⟨data, rfl⟩
          · have hvfalse : (validateBacklog data v).valid = false := by simpa using hvd
            rw [attemptLoopAux_schemafail_step api v n att msgs le data fc hapi hvfalse]
              at hdone
            exact ih (att + 1) _ _ r hdone hs

/-- In a schema-valid backlog, every element of `mvp` satisfies the story
item schema. -/
theorem checkBacklog_mvp_story (fs : List (String × Json)) (mv : List Json)
    (S : Json) (hB : checkBacklog (.jobj fs) = true)
    (hmv : jLookup fs "mvp" = some (.jarr mv)) (hS : S ∈ mv) :
    checkStory S = true := by
  simp only [checkBacklog, Bool.and_eq_true] at hB
  obtain ⟨⟨-, hm⟩, -⟩ := hB
  simp only [propOk, hmv, Bool.and_eq_true, List.all_eq_true] at hm
  exact hm.2 S hS

/-- In a schema-valid backlog, every element of any iteration's `stories`
satisfies the story item schema. -/
theorem checkBacklog_iteration_story (fs : List (String × Json))
    (its : List Json) (itfs : List (String × Json)) (sts : List Json)
    (S : Json) (hB : checkBacklog (.jobj fs) = true)
    (hits : jLookup fs "iterations" = some (.jarr its))
    (hmem : (Json.jobj itfs) ∈ its)
    (hsts : jLookup itfs "stories" = some (.jarr sts)) (hS : S ∈ sts) :
    checkStory S = true := by
  simp only [checkBacklog, Bool.and_eq_true] at hB
  obtain ⟨-, hi⟩ := hB
  simp only [propOk, hits, Bool.and_eq_true, List.all_eq_true] at hi
  have hiter : checkIteration (.jobj itfs) = true := hi.2 _ hmem
  simp only [checkIteration, Bool.and_eq_true] at hiter
  obtain ⟨-, hst⟩ := hiter
  simp only [propOk, hsts, Bool.and_eq_true, List.all_eq_true] at hst
  exact hst.2 S hS

/-- A concrete backlog hosting an arbitrary story `S` in its `mvp`. -/
def mvpHostFields (S : Json) : List (String × Json) :=
  [("epic", sampleEpic),
   ("mvp", .jarr [S, mkStory "US002" "second", mkStory "US003" "third"]),
   ("iterations", .jarr sampleIterations)]

/-- A concrete backlog hosting an arbitrary story `S` as the single story
of its first iteration. -/
def iterHostFields (S : Json) : List (String × Json) :=
  [("epic", sampleEpic), ("mvp", .jarr sampleMvp),
   ("iterations", .jarr [mkIteration "iteration one" [S],
                         mkIteration "iteration two" [mkStory "US005" "fifth"]])]

/-- Any schema-valid story embeds into a schema-valid backlog through its
`mvp`. -/
theorem checkBacklog_mvpHost (S : Json) (hS : checkStory S = true) :
    checkBacklog (.jobj (mvpHostFields S)) = true := by
  have h2 : checkStory (mkStory "US002" "second") = true := by decide
  have h3 : checkStory (mkStory "US003" "third") = true := by decide
  have he : checkEpic sampleEpic = true := by decide
  have hi1 : checkIteration (mkIteration "iteration one" [mkStory "US004" "fourth"]) = true := by
    decide
  have hi2 : checkIteration (mkIteration "iteration two" [mkStory "US005" "fifth"]) = true := by
    decide
  have lep : jLookup (mvpHostFields S) "epic" = some sampleEpic := rfl
  have lmv : jLookup (mvpHostFields S) "mvp" =
      some (.jarr [S, mkStory "US002" "second", mkStory "US003" "third"]) := rfl
  have lit : jLookup (mvpHostFields S) "iterations" = some (.jarr sampleIterations) := rfl
  simp only [checkBacklog, propOk, lep, lmv, lit, sampleIterations, Option.isSome_some,
    List.all_cons, List.all_nil, List.length_cons, List.length_nil, he, hS, h2, h3,
    hi1, hi2, Bool.and_true, Bool.true_and, Bool.and_self]
  simp

/-- Any schema-valid story embeds into a schema-valid backlog through an
iteration's `stories`. -/
theorem checkBacklog_iterHost (S : Json) (hS : checkStory S = true) :
    checkBacklog (.jobj (iterHostFields S)) = true := by
  have h1 : checkStory (mkStory "US001" "first") = true := by decide
  have h2 : checkStory (mkStory "US002" "second") = true := by decide
  have h3 : checkStory (mkStory "US003" "third") = true := by decide
  have h5 : checkStory (mkStory "US005" "fifth") = true := by decide
  have he : checkEpic sampleEpic = true := by decide
  have hi2 : checkIteration (mkIteration "iteration two" [mkStory "US005" "fifth"]) = true := by
    decide
  have hi1 : checkIteration (mkIteration "iteration one" [S]) = true := by
    have ln : jLookup [("name", Json.jstr "iteration one"), ("goal", Json.jstr "goal"),
        ("stories", Json.jarr [S])] "name" = some (.jstr "iteration one") := rfl
    have lg : jLookup [("name", Json.jstr "iteration one"), ("goal", Json.jstr "goal"),
        ("stories", Json.jarr [S])] "goal" = some (.jstr "goal") := rfl
    have ls : jLookup [("name", Json.jstr "iteration one"), ("goal", Json.jstr "goal"),
        ("stories", Json.jarr [S])] "stories" = some (.jarr [S]) := rfl
    simp only [mkIteration, checkIteration, propOk, ln, lg, ls, Option.isSome_some,
      List.all_cons, List.all_nil, List.length_cons, List.length_nil, hS,
      Bool.and_true, Bool.true_and, Bool.and_self]
    simp [isString]
  have lep : jLookup (iterHostFields S) "epic" = some sampleEpic := rfl
  have lmv : jLookup (iterHostFields S) "mvp" = some (.jarr sampleMvp) := rfl
  have lit : jLookup (iterHostFields S) "iterations" =
      some (.jarr [mkIteration "iteration one" [S],
                   mkIteration "iteration two" [mkStory "US005" "fifth"]]) := rfl
  simp only [checkBacklog, propOk, lep, lmv, lit, sampleMvp, Option.isSome_some,
    List.all_cons, List.all_nil, List.length_cons, List.length_nil, he, h1, h2, h3,
    hi1, hi2, Bool.and_true, Bool.true_and, Bool.and_self]
  simp

/-- Appending a field to an object leaves every already-present member
lookup unchanged (JavaScript property access finds the existing member). -/
theorem jLookup_append_of_isSome (fs : List (String × Json)) (k' k : String)
    (v : Json) (h : (jLookup fs k').isSome = true) :
    jLookup (fs ++ [(k, v)]) k' = jLookup fs k' := by
  unfold jLookup at h ⊢
  rw [List.find?_append]
  cases hf : fs.find? (fun p => p.1 == k') with
  | none => rw [hf] at h; simp at h
  | some p => simp [hf]

/-- Extending a schema-valid epic object with an extra field keeps it
schema-valid (the schema has no `additionalProperties` keyword). -/
theorem checkEpic_append (fs : List (String × Json)) (k : String) (v : Json)
    (h : checkEpic (.jobj fs) = true) :
    checkEpic (.jobj (fs ++ [(k, v)])) = true := by
  simp only [checkEpic, Bool.and_eq_true] at h ⊢
  obtain ⟨⟨⟨ht, hd⟩, pt⟩, pd⟩ := h
  have lt := jLookup_append_of_isSome fs "title" k v ht
  have ld := jLookup_append_of_isSome fs "description" k v hd
  refine ⟨⟨⟨?_, ?_⟩, ?_⟩, ?_⟩
  · rw [lt]; exact ht
  · rw [ld]; exact hd
  · simp only [propOk, lt]; simpa only [propOk] using pt
  · simp only [propOk, ld]; simpa only [propOk] using pd

/-- Extending a schema-valid story object with an extra field keeps it
schema-valid. -/
theorem checkStory_append (fs : List (String × Json)) (k : String) (v : Json)
    (h : checkStory (.jobj fs) = true) :
    checkStory (.jobj (fs ++ [(k, v)])) = true := by
  simp only [checkStory, Bool.and_eq_true] at h ⊢
  obtain ⟨⟨⟨⟨⟨⟨⟨⟨⟨⟨⟨hid, hti⟩, hde⟩, hac⟩, hta⟩, hpr⟩, pid⟩, pti⟩, pde⟩, pac⟩, pta⟩, ppr⟩ := h
  have lid := jLookup_append_of_isSome fs "id" k v hid
  have lti := jLookup_append_of_isSome fs "title" k v hti
  have lde := jLookup_append_of_isSome fs "description" k v hde
  have lac := jLookup_append_of_isSome fs "acceptance_criteria" k v hac
  have lta := jLookup_append_of_isSome fs "tasks" k v hta
  have lpr := jLookup_append_of_isSome fs "priority" k v hpr
  refine ⟨⟨⟨⟨⟨⟨⟨⟨⟨⟨⟨?_, ?_⟩, ?_⟩, ?_⟩, ?_⟩, ?_⟩, ?_⟩, ?_⟩, ?_⟩, ?_⟩, ?_⟩, ?_⟩
  · rw [lid]; exact hid
  · rw [lti]; exact hti
  · rw [lde]; exact hde
  · rw [lac]; exact hac
  · rw [lta]; exact hta
  · rw [lpr]; exact hpr
  · simp only [propOk, lid]; simpa only [propOk] using pid
  · simp only [propOk, lti]; simpa only [propOk] using pti
  · simp only [propOk, lde]; simpa only [propOk] using pde
  · simp only [propOk, lac]; simpa only [propOk] using pac
  · simp only [propOk, lta]; simpa only [propOk] using pta
  · simp only [propOk, lpr]; simpa only [propOk] using ppr

/-- Extending a schema-valid iteration object with an extra field keeps it
schema-valid. -/
theorem checkIteration_append (fs : List (String × Json)) (k : String) (v : Json)
    (h : checkIteration (.jobj fs) = true) :
    checkIteration (.jobj (fs ++ [(k, v)])) = true := by
  simp only [checkIteration, Bool.and_eq_true] at h ⊢
  obtain ⟨⟨⟨⟨⟨hn, hg⟩, hs⟩, pn⟩, pg⟩, ps⟩ := h
  have ln := jLookup_append_of_isSome fs "name" k v hn
  have lg := jLookup_append_of_isSome fs "goal" k v hg
  have ls := jLookup_append_of_isSome fs "stories" k v hs
  refine ⟨⟨⟨⟨⟨?_, ?_⟩, ?_⟩, ?_⟩, ?_⟩, ?_⟩
  · rw [ln]; exact hn
  · rw [lg]; exact hg
  · rw [ls]; exact hs
  · simp only [propOk, ln]; simpa only [propOk] using pn
  · simp only [propOk, lg]; simpa only [propOk] using pg
  · simp only [propOk, ls]; simpa only [propOk] using ps

/-- Extending a schema-valid backlog with an extra root field keeps it
schema-valid. -/
theorem checkBacklog_append (fs : List (String × Json)) (k : String) (v : Json)
    (h : checkBacklog (.jobj fs) = true) :
    checkBacklog (.jobj (fs ++ [(k, v)])) = true := by
  simp only [checkBacklog, Bool.and_eq_true] at h ⊢
  obtain ⟨⟨⟨⟨⟨he, hm⟩, hi⟩, pe⟩, pm⟩, pi⟩ := h
  have le := jLookup_append_of_isSome fs "epic" k v he
  have lm := jLookup_append_of_isSome fs "mvp" k v hm
  have li := jLookup_append_of_isSome fs "iterations" k v hi
  refine ⟨⟨⟨⟨⟨?_, ?_⟩, ?_⟩, ?_⟩, ?_⟩, ?_⟩
  · rw [le]; exact he
  · rw [lm]; exact hm
  · rw [li]; exact hi
  · simp only [propOk, le]; simpa only [propOk] using pe
  · simp only [propOk, lm]; simpa only [propOk] using pm
  · simp only [propOk, li]; simpa only [propOk] using pi

/-- JavaScript `||` returns the left string when it is non-empty. -/
theorem jsOr_of_ne (m d : String) (h : m ≠ "") : jsOr m d = m := by
  unfold jsOr
  have hb : (m == "") = false := by simpa using h
  rw [hb]
  simp

/-! Claim theorems. -/

/-- C1: the first attempt whose adapter result is valid and whose data
passes schema validation terminates the loop immediately with
`{success:true, result:<that data>}`, making no further adapter call
however many attempts remain.  The first conjunct states this for any
reachable loop state (any attempt number, any remaining fuel, any recorded
failure); the second instantiates it for the loop entry
`attemptBacklogGeneration`. -/
theorem claim_first_valid_attempt_stops :
    (∀ (api : Nat → List Message → ApiOutcome) (v : Json → List AjvError)
       (rem att : Nat) (msgs : List Message) (le : Option LastErr)
       (data : Json) (fc : FunctionCall),
       api att msgs = .valid data fc → v data = [] →
       attemptLoopAux api v (rem + 1) att msgs le =
         { outcome := .done { success := true, result := some data,
                              lastValidationErrors := none },
           calls := [msgs] }) ∧
    (∀ (api : Nat → List Message → ApiOutcome) (v : Json → List AjvError)
       (msgs0 : List Message) (data : Json) (fc : FunctionCall),
       api 1 msgs0 = .valid data fc → v data = [] →
       attemptBacklogGeneration api v msgs0 =
         { outcome := .done { success := true, result := some data,
                              lastValidationErrors := none },
           calls := [msgs0] }) := by
  constructor
  · intro api v rem att msgs le data fc h1 h2
    exact attemptLoopAux_success_stop api v rem att msgs le data fc h1 h2
  · intro api v msgs0 data fc h1 h2
    exact attemptLoopAux_success_stop api v 2 1 msgs0 none data fc h1 h2

/-- Witness for C1 at a concrete input. -/
theorem claim_first_valid_attempt_stops_witness :
    attemptBacklogGeneration
        (fun _ _ => .valid (Json.jobj []) { name := "deliver_backlog", arguments := "args" })
        (fun _ => []) [] =
      { outcome := .done { success := true, result := some (Json.jobj []),
                           lastValidationErrors := none },
        calls := [[]] } :=
  claim_first_valid_attempt_stops.2 _ _ []
    (Json.jobj []) { name := "deliver_backlog", arguments := "args" } rfl rfl

/-- C2: the adapter is invoked at most `maxTries = 3` times, and when
every attempt fails (adapter-level or schema-level) it is invoked exactly
3 times and the loop returns `{success:false}` carrying the failure
recorded on the last attempt. -/
theorem claim_adapter_call_bound :
    (∀ (api : Nat → List Message → ApiOutcome) (v : Json → List AjvError)
       (msgs0 : List Message),
       (attemptBacklogGeneration api v msgs0).calls.length ≤ maxTries) ∧
    (∀ (api : Nat → List Message → ApiOutcome) (v : Json → List AjvError)
       (msgs0 : List Message),
       (∀ a m, AttemptFails v (api a m)) →
       (attemptBacklogGeneration api v msgs0).calls.length = maxTries ∧
       ∃ last : List Message,
         (attemptBacklogGeneration api v msgs0).calls[maxTries - 1]? = some last ∧
         (attemptBacklogGeneration api v msgs0).outcome =
           .done { success := false, result := none,
                   lastValidationErrors := failureOf v (api maxTries last) }) := by
  constructor
  · intro api v msgs0
    exact attemptLoopAux_calls_length api v maxTries 1 msgs0 none
  · intro api v msgs0 hfail
    obtain ⟨last, h1, h2, h3⟩ := attemptLoopAux_all_fail api v hfail 2 1 msgs0 none
    exact ⟨h2, last, h3, h1⟩

/-- Witness for C2 at a concrete all-failing input. -/
theorem claim_adapter_call_bound_witness :
    (attemptBacklogGeneration (fun _ _ => .invalid "boom") (fun _ => []) []).calls.length
        = maxTries ∧
    ∃ last : List Message,
      (attemptBacklogGeneration (fun _ _ => .invalid "boom")
          (fun _ => []) []).calls[maxTries - 1]? = some last ∧
      (attemptBacklogGeneration (fun _ _ => .invalid "boom") (fun _ => []) []).outcome =
        .done { success := false, result := none,
                lastValidationErrors := some (.apiErr "boom") } :=
  claim_adapter_call_bound.2 _ _ [] (fun _ _ => trivial)

/-- C3: whenever the attempt at trace index `k` (attempt number `1 + k`)
returns parsed data that fails schema validation and attempts remain, the
message sequence of the next adapter call equals the previous one plus
exactly two turns: the assistant turn echoing the raw function call, and
the corrective system turn containing all violation messages formatted as
`<instancePath> <message>` joined by `; `. -/
theorem claim_schema_failure_appends_two_turns :
    ∀ (api : Nat → List Message → ApiOutcome) (v : Json → List AjvError)
      (msgs0 : List Message) (k : Nat) (mk : List Message)
      (data : Json) (fc : FunctionCall),
      (attemptBacklogGeneration api v msgs0).calls[k]? = some mk →
      api (1 + k) mk = .valid data fc →
      (v data).isEmpty = false →
      k + 1 < maxTries →
      (attemptBacklogGeneration api v msgs0).calls[k + 1]? =
        some (mk ++ [assistantEcho fc, correctiveTurn (fmtErrors (v data))]) := by
  intro api v msgs0 k mk data fc hk hcall hinv hlt
  exact attemptLoopAux_calls_succ_schema api v maxTries 1 msgs0 none k mk data fc
    hk hcall hinv hlt

/-- Witness for C3 at a concrete schema-failing input. -/
theorem claim_schema_failure_appends_two_turns_witness :
    (attemptBacklogGeneration
        (fun _ _ => .valid Json.jnull { name := "deliver_backlog", arguments := "args" })
        (fun _ => [{ instancePath := "/mvp", message := "must be array" }]) []).calls[1]? =
      some ([] ++ [assistantEcho { name := "deliver_backlog", arguments := "args" },
        correctiveTurn (fmtErrors [{ instancePath := "/mvp", message := "must be array" }])]) :=
  claim_schema_failure_appends_two_turns _ _ [] 0 [] Json.jnull
    { name := "deliver_backlog", arguments := "args" } rfl rfl rfl (by decide)

/-- C4: whenever the attempt at trace index `k` (attempt number `1 + k`)
fails at the adapter level (`{valid:false}`) and attempts remain, the next
adapter call receives exactly the same message sequence (first conjunct),
and the adapter error is recorded as the last-known failure — returned as
`lastValidationErrors` when that was the final attempt (second
conjunct). -/
theorem claim_transport_failure_keeps_messages :
    (∀ (api : Nat → List Message → ApiOutcome) (v : Json → List AjvError)
       (msgs0 : List Message) (k : Nat) (mk : List Message) (err : String),
       (attemptBacklogGeneration api v msgs0).calls[k]? = some mk →
       api (1 + k) mk = .invalid err →
       k + 1 < maxTries →
       (attemptBacklogGeneration api v msgs0).calls[k + 1]? = some mk) ∧
    (∀ (api : Nat → List Message → ApiOutcome) (v : Json → List AjvError)
       (att : Nat) (msgs : List Message) (le : Option LastErr) (err : String),
       api att msgs = .invalid err →
       (attemptLoopAux api v 1 att msgs le).outcome =
         .done { success := false, result := none,
                 lastValidationErrors := some (.apiErr err) }) := by
  constructor
  · intro api v msgs0 k mk err hk hcall hlt
    exact attemptLoopAux_calls_succ_apifail api v maxTries 1 msgs0 none k mk err
      hk hcall hlt
  · intro api v att msgs le err h
    rw [attemptLoopAux_invalid_step api v 0 att msgs le err h]
    simp [attemptLoopAux]

/-- Witness for C4 at a concrete adapter-failing input. -/
theorem claim_transport_failure_keeps_messages_witness :
    (attemptBacklogGeneration (fun _ _ => .invalid "down") (fun _ => []) []).calls[1]? =
      some [] :=
  claim_transport_failure_keeps_messages.1 _ _ [] 0 [] "down" rfl rfl (by decide)

/-- C5 counterexample: an otherwise fully conformant backlog carrying its
epic as an `epics` sequence instead of an `epic` object is rejected by the
validation schema, while the same content with `epic` is accepted — so
validation does not accept both shapes. -/
theorem claim_dual_shape_counterexample :
    checkBacklog epicsShapeBacklog = false ∧ checkBacklog sampleBacklog = true :=
  ⟨by decide, by decide⟩

/-- C5 amended: validation accepts the `epic` single-object shape, and
every backlog it accepts carries an `epic` member — the `epics` sequence
shape is accepted only downstream by the markdown generator, not by the
validation schema, whose `required` list names `epic`. -/
theorem claim_epic_shape_only :
    checkBacklog sampleBacklog = true ∧
    (∀ fs : List (String × Json), checkBacklog (.jobj fs) = true →
      (jLookup fs "epic").isSome = true) := by
  refine ⟨by decide, ?_⟩
  intro fs h
  simp only [checkBacklog, Bool.and_eq_true] at h
  exact h.1.1.1.1.1

/-- Witness for the amended C5 at a concrete input. -/
theorem claim_epic_shape_only_witness :
    (jLookup sampleBacklogFields "epic").isSome = true :=
  claim_epic_shape_only.2 sampleBacklogFields (by decide)

/-- C6: an exception raised while generating (in the model: an adapter
exception propagating out of the loop, second conjunct) is caught at the
`generateBacklog` boundary and converted into
`{success:false, error:{message:<the exception's message>}}` (first
conjunct; the function is total, so the promise always resolves). -/
theorem claim_exception_boundary :
    (∀ (pn s : String) (cl : Client) (api : Nat → List Message → ApiOutcome)
       (v : Json → List AjvError) (m : String),
       m ≠ "" →
       (attemptBacklogGeneration api v
           (createApiMessages (pn ++ ": " ++ s))).outcome = .raised m →
       generateBacklog pn (.strDesc s) (some cl) api v =
         { success := false, result := none, error := some { message := m } }) ∧
    (∀ (api : Nat → List Message → ApiOutcome) (v : Json → List AjvError)
       (rem att : Nat) (msgs : List Message) (le : Option LastErr) (m : String),
       api att msgs = .throws m →
       (attemptLoopAux api v (rem + 1) att msgs le).outcome = .raised m) := by
  constructor
  · intro pn s cl api v m hm hr
    unfold generateBacklog generateBacklogRun
    have hp : processBacklogParams pn (.strDesc s) (some cl) =
        .ok (pn ++ ": " ++ s) cl := rfl
    rw [hp]
    simp only [hr, jsOr_of_ne m _ hm]
  · intro api v rem att msgs le m h
    exact attemptLoopAux_throws api v rem att msgs le m h

/-- Witness for C6 at a concrete throwing adapter. -/
theorem claim_exception_boundary_witness :
    generateBacklog "P" (.strDesc "D") (some { baseURL := none })
        (fun _ _ => .throws "ECONNRESET") (fun _ => []) =
      { success := false, result := none,
        error := some { message := "ECONNRESET" } } :=
  claim_exception_boundary.1 "P" "D" { baseURL := none } _ _ "ECONNRESET"
    (by decide) rfl

/-- C7: with no client argument (and a string description), the call
returns the configuration-failure envelope `Client API non défini` and the
adapter-invocation trace is empty — the adapter is never invoked. -/
theorem claim_missing_client_no_network :
    ∀ (pn s : String) (api : Nat → List Message → ApiOutcome)
      (v : Json → List AjvError),
      generateBacklogRun pn (.strDesc s) none api v =
        ({ success := false, result := none,
           error := some { message := "Client API non défini" } }, []) :=
  fun _ _ _ _ => rfl

/-- C8: every envelope produced by `generateBacklog` is fully consistent:
on success the result is present and the error absent, on failure the
error (with its message) is present and the result absent. -/
theorem claim_envelope_never_partial (pn : String) (d : DescArg)
    (cl : Option Client) (api : Nat → List Message → ApiOutcome)
    (v : Json → List AjvError) :
    ((generateBacklog pn d cl api v).success = true ∧
      (∃ r, (generateBacklog pn d cl api v).result = some r) ∧
      (generateBacklog pn d cl api v).error = none) ∨
    ((generateBacklog pn d cl api v).success = false ∧
      (generateBacklog pn d cl api v).result = none ∧
      ∃ m, (generateBacklog pn d cl api v).error = some { message := m }) := by
  unfold generateBacklog generateBacklogRun
  cases hp : processBacklogParams pn d cl with
  | invalid e =>
      right
      refine ⟨rfl, rfl, e.message, rfl⟩
  | ok project cl' =>
      simp only []
      cases ho : (attemptBacklogGeneration api v (createApiMessages project)).outcome with
      | raised m =>
          right
          simp only [ho]
          exact ⟨trivial, trivial, _, rfl⟩
      | done r =>
          cases hs : r.success with
          | true =>
              left
              obtain ⟨dr, hdr⟩ := attemptLoopAux_done_success_result api v maxTries 1
                (createApiMessages project) none r ho hs
              simp only [ho, hs, if_true]
              exact ⟨trivial, ⟨dr, hdr⟩, trivial⟩
          | false =>
              right
              simp only [ho, hs, Bool.false_eq_true, if_false]
              exact ⟨trivial, trivial, _, rfl⟩

/-- A story shape the validation accepts as an element of some valid
backlog's `mvp`. -/
def acceptedInMvp (S : Json) : Prop :=
  ∃ (fs : List (String × Json)) (mv : List Json),
    checkBacklog (.jobj fs) = true ∧ jLookup fs "mvp" = some (.jarr mv) ∧ S ∈ mv

/-- A story shape the validation accepts as an element of some iteration's
`stories` in some valid backlog. -/
def acceptedInIterationStories (S : Json) : Prop :=
  ∃ (fs : List (String × Json)) (its : List Json)
    (itfs : List (String × Json)) (sts : List Json),
    checkBacklog (.jobj fs) = true ∧
    jLookup fs "iterations" = some (.jarr its) ∧
    (Json.jobj itfs) ∈ its ∧
    jLookup itfs "stories" = some (.jarr sts) ∧ S ∈ sts

/-- C9: because the story item schema is shared (the `$ref` of
`iterations[].stories.items` resolves to the `mvp` item schema), a story
is accepted inside `mvp` exactly when it is accepted inside an iteration's
`stories` — both contexts accept identical story shapes. -/
theorem claim_story_schema_shared (S : Json) :
    acceptedInMvp S ↔ acceptedInIterationStories S := by
  constructor
  · rintro ⟨fs, mv, hB, hmv, hS⟩
    have hst : checkStory S = true := checkBacklog_mvp_story fs mv S hB hmv hS
    refine ⟨iterHostFields S,
      [mkIteration "iteration one" [S], mkIteration "iteration two" [mkStory "US005" "fifth"]],
      [("name", Json.jstr "iteration one"), ("goal", Json.jstr "goal"),
       ("stories", Json.jarr [S])],
      [S], checkBacklog_iterHost S hst, rfl, ?_, rfl, ?_⟩
    · exact List.mem_cons_self _ _
    · exact List.mem_cons_self _ _
  · rintro ⟨fs, its, itfs, sts, hB, hits, hmem, hsts, hS⟩
    have hst : checkStory S = true :=
      checkBacklog_iteration_story fs its itfs sts S hB hits hmem hsts hS
    exact ⟨mvpHostFields S, [S, mkStory "US002" "second", mkStory "US003" "third"],
      checkBacklog_mvpHost S hst, rfl, List.mem_cons_self _ _⟩

/-- Witness for C9 at a concrete story. -/
theorem claim_story_schema_shared_witness :
    acceptedInIterationStories (mkStory "US001" "first") :=
  (claim_story_schema_shared (mkStory "US001" "first")).mp
    ⟨sampleBacklogFields, sampleMvp, by decide, rfl, List.mem_cons_self _ _⟩

/-- C10: the schema carries no `additionalProperties` restriction at any
level, so a schema-valid backlog, epic, story or iteration object extended
with an arbitrary extra field (a key not already present) remains
schema-valid. -/
theorem claim_extra_fields_accepted :
    (∀ (fs : List (String × Json)) (k : String) (v : Json),
       k ∉ fs.map Prod.fst → checkBacklog (.jobj fs) = true →
       checkBacklog (.jobj (fs ++ [(k, v)])) = true) ∧
    (∀ (fs : List (String × Json)) (k : String) (v : Json),
       k ∉ fs.map Prod.fst → checkEpic (.jobj fs) = true →
       checkEpic (.jobj (fs ++ [(k, v)])) = true) ∧
    (∀ (fs : List (String × Json)) (k : String) (v : Json),
       k ∉ fs.map Prod.fst → checkStory (.jobj fs) = true →
       checkStory (.jobj (fs ++ [(k, v)])) = true) ∧
    (∀ (fs : List (String × Json)) (k : String) (v : Json),
       k ∉ fs.map Prod.fst → checkIteration (.jobj fs) = true →
       checkIteration (.jobj (fs ++ [(k, v)])) = true) :=
  ⟨fun fs k v _ h => checkBacklog_append fs k v h,
   fun fs k v _ h => checkEpic_append fs k v h,
   fun fs k v _ h => checkStory_append fs k v h,
   fun fs k v _ h => checkIteration_append fs k v h⟩

/-- Witness for C10 at a concrete input. -/
theorem claim_extra_fields_accepted_witness :
    checkBacklog (.jobj (sampleBacklogFields ++ [("comment", Json.jstr "extra")])) = true :=
  claim_extra_fields_accepted.1 sampleBacklogFields "comment" (Json.jstr "extra")
    (by decide) (by decide)
